import Mathlib

/-!
Verification of the onboarding / auth signing core of the
`trade_lighter_paradex` repository (`src/onboarding.rs`).

A Rust `&str` is modelled by its UTF-8 byte sequence, `List Nat` with every
entry below 256.  Field elements are modelled as `Nat` reduced modulo the
Stark prime where field semantics matter.  The trusted external capabilities
(`hash_on_elements`, `starknet_keccak`, the felt parser of the `starknet`
crate) are either kept parametric or modelled from the specification, as
marked on each definition.
-/

/-- The Stark prime: the modulus of the field of the `Felt` type. -/
def STARK_PRIME : Nat := 2 ^ 251 + 17 * 2 ^ 192 + 1

/-- All entries of a byte list are actual bytes (below 256). -/
def Bytes (s : List Nat) : Prop := ∀ b ∈ s, b < 256

/-- All entries of a byte list are ASCII bytes (below 128). -/
def AsciiBytes (s : List Nat) : Prop := ∀ b ∈ s, b < 128

instance (s : List Nat) : Decidable (Bytes s) := by
  unfold Bytes; infer_instance

instance (s : List Nat) : Decidable (AsciiBytes s) := by
  unfold AsciiBytes; infer_instance

/-- Lower-case hexadecimal digit character for a value below 16,
as produced by Rust's `{:02x}` formatting. -/
def hexDigitChar (d : Nat) : Char :=
  if d < 10 then Char.ofNat (48 + d) else Char.ofNat (87 + d)

/-- The two-digit lower-case hexadecimal rendering of one byte, the effect of
`format!("{:02x}", byte)` for a `u8`. -/
def hex2 (b : Nat) : String :=
  ⟨[hexDigitChar (b / 16), hexDigitChar (b % 16)]⟩

/-- Translation of `string_to_felt_hex` (src/onboarding.rs, lines 30-40):
the empty string returns "0x0"; otherwise start from "0x" and push the
two-digit hex form of each byte in order. -/
def string_to_felt_hex (s : List Nat) : String :=
  if s = [] then "0x0"
  else s.foldl (fun acc b => acc ++ hex2 b) "0x"

/-- UTF-8 bytes of the string literal "Paradex". -/
def paradexBytes : List Nat := [0x50, 0x61, 0x72, 0x61, 0x64, 0x65, 0x78]

/-- A JSON scalar value as used in the typed-data JSON of the source:
either a string or an unsigned number. -/
inductive JVal where
  | s (v : String)
  | n (v : Nat)
deriving DecidableEq

/-- The typed-data object built by the source: the `types` map, the primary
type name, and the `domain` and `message` objects as ordered key/value
lists, in the textual order of the JSON in the source. -/
structure TypedData where
  types : List (String × List (String × String))
  primaryType : String
  domain : List (String × JVal)
  message : List (String × JVal)
deriving DecidableEq

/-- Ordered key lookup in a JSON object. -/
def lookupField {α : Type} (l : List (String × α)) (k : String) : Option α :=
  (l.find? (fun p => p.1 == k)).map (fun p => p.2)

/-- The fixed StarkNetDomain schema appearing in both typed-data JSONs. -/
def starknet_domain_fields : List (String × String) :=
  [("name", "felt"), ("version", "felt"), ("chainId", "felt")]

/-- Translation of `build_onboarding_typed_data` (src/onboarding.rs,
lines 43-67): types, primary type "Constant", domain with name/chainId
through `string_to_felt_hex` and version "1", message action "Onboarding". -/
def build_onboarding_typed_data (chain_id : List Nat) : TypedData :=
  { types := [("StarkNetDomain", starknet_domain_fields),
              ("Constant", [("action", "felt")])]
    primaryType := "Constant"
    domain := [("name", JVal.s (string_to_felt_hex paradexBytes)),
               ("chainId", JVal.s (string_to_felt_hex chain_id)),
               ("version", JVal.s "1")]
    message := [("action", JVal.s "Onboarding")] }

/-- Translation of `build_auth_typed_data` (src/onboarding.rs, lines 70-102):
types, primary type "Request", the same domain object, and the auth message
with method/path/body strings and numeric timestamp/expiration. -/
def build_auth_typed_data (chain_id : List Nat) (timestamp expiry : Nat) :
    TypedData :=
  { types := [("StarkNetDomain", starknet_domain_fields),
              ("Request", [("method", "felt"), ("path", "felt"),
                           ("body", "felt"), ("timestamp", "felt"),
                           ("expiration", "felt")])]
    primaryType := "Request"
    domain := [("name", JVal.s (string_to_felt_hex paradexBytes)),
               ("chainId", JVal.s (string_to_felt_hex chain_id)),
               ("version", JVal.s "1")]
    message := [("method", JVal.s "POST"), ("path", JVal.s "/v1/auth"),
                ("body", JVal.s ""), ("timestamp", JVal.n timestamp),
                ("expiration", JVal.n expiry)] }

/-- Numeric value of one hexadecimal digit character (0 on other input). -/
def hexDigitVal (c : Char) : Nat :=
  if 48 ≤ c.toNat ∧ c.toNat ≤ 57 then c.toNat - 48
  else if 97 ≤ c.toNat ∧ c.toNat ≤ 102 then c.toNat - 87
  else if 65 ≤ c.toNat ∧ c.toNat ≤ 70 then c.toNat - 55
  else 0

/-- Modelled from the spec: the integer denoted by a "0x"-prefixed
hexadecimal string, the trusted felt parsing capability applied to the
output of the string encoding (before field reduction). -/
def feltHexValue (h : String) : Nat :=
  (h.data.drop 2).foldl (fun a c => a * 16 + hexDigitVal c) 0

/-- Modelled from the spec: decimal parsing of a digit string, used by the
felt parser for JSON string values without a "0x" prefix (such as the
domain version "1"). -/
def decimalValue (h : String) : Nat :=
  h.data.foldl (fun a c => a * 10 + (c.toNat - 48)) 0

/-- Modelled from the spec: the field element denoted by a JSON string
declared of type felt — "0x"-prefixed strings parse as hexadecimal, others
as decimal, reduced into the field. -/
def feltOfString (v : String) : Nat :=
  match v.data with
  | '0' :: 'x' :: _ => feltHexValue v % STARK_PRIME
  | _ => decimalValue v % STARK_PRIME

/-- Modelled from the spec: the field element denoted by a JSON scalar of
declared type felt. -/
def jvalFelt : Option JVal → Nat
  | some (JVal.s v) => feltOfString v
  | some (JVal.n v) => v % STARK_PRIME
  | none => 0

/-- The parsed `name` felt of a typed-data domain
(`typed_data.encoder().domain().name` in the source). -/
def domain_name_felt (td : TypedData) : Nat :=
  jvalFelt (lookupField td.domain "name")

/-- The parsed `version` felt of a typed-data domain. -/
def domain_version_felt (td : TypedData) : Nat :=
  jvalFelt (lookupField td.domain "version")

/-- The parsed `chain_id` felt of a typed-data domain. -/
def domain_chain_id_felt (td : TypedData) : Nat :=
  jvalFelt (lookupField td.domain "chainId")

/-- Comma separated join of a list of strings. -/
def commaJoin : List String → String
  | [] => ""
  | [x] => x
  | x :: y :: t => x ++ "," ++ commaJoin (y :: t)

/-- Modelled from the spec (section 4.1): the canonical type-encoding
string "TypeName(field1:type1,...)" whose hash is the type hash. -/
def typeEncodingString (name : String) (fields : List (String × String)) :
    String :=
  name ++ "(" ++ commaJoin (fields.map (fun f => f.1 ++ ":" ++ f.2)) ++ ")"

/-- Modelled from the spec (section 4.3): `hash_on_elements`, the trusted
left-fold pairwise hash over the ordered element list, finalized with the
element count, kept parametric in the pairwise hash `p`. -/
def hashOnElements (p : Nat → Nat → Nat) (l : List Nat) : Nat :=
  p (l.foldl p 0) l.length

/-- Modelled from the spec (section 4.3, steps 1-2): the schema-driven
domain hash `typed_data.encoder().domain().encoded_hash()` — the hash of
the domain type hash (keccak `K` of the type-encoding string derived from
the `types` map) followed by the parsed domain felts in schema order. -/
def encoded_domain_hash (p : Nat → Nat → Nat) (K : String → Nat)
    (td : TypedData) : Nat :=
  hashOnElements p
    [K (typeEncodingString "StarkNetDomain"
          ((lookupField td.types "StarkNetDomain").getD [])),
     domain_name_felt td, domain_version_felt td, domain_chain_id_felt td]

/-- Translation of the manual cross-check (src/onboarding.rs, lines 129-135
and 217-223): hash of the keccak of the literal domain type string followed
by the parsed domain felts. -/
def manual_domain_hash (p : Nat → Nat → Nat) (K : String → Nat)
    (td : TypedData) : Nat :=
  hashOnElements p
    [K "StarkNetDomain(name:felt,version:felt,chainId:felt)",
     domain_name_felt td, domain_version_felt td, domain_chain_id_felt td]

/-- Big-endian byte-packed integer value of a byte string: the integer the
hex encoding denotes. -/
def bytePackValue (s : List Nat) : Nat :=
  s.foldl (fun a b => a * 256 + b) 0

/-- The hex digit characters of a byte string, two lower-case digits per
byte, in order. -/
def hexCharsOf : List Nat → List Char
  | [] => []
  | b :: t => hexDigitChar (b / 16) :: hexDigitChar (b % 16) :: hexCharsOf t

/-- Concatenation of the two-digit hex chunks of a byte string. -/
def hexChunks : List Nat → String
  | [] => ""
  | b :: t => hex2 b ++ hexChunks t

/-- Definition following the words of the specification (section 4.2): the
string encoding is "0x" followed by exactly two hex digits for each UTF-8
byte, in order, and the empty string maps to "0x0". -/
def string_encoding_spec (s : List Nat) : String :=
  if s = [] then "0x0" else "0x" ++ hexChunks s

/-- The field element denoted by the hex-string encoding of a byte string:
parse the produced hex string and reduce into the field. -/
def feltDenote (s : List Nat) : Nat :=
  feltHexValue (string_to_felt_hex s) % STARK_PRIME

/-- Modelled from the spec (section 8): `decode`, the inverse of the
string-to-felt byte-packing map — the minimal big-endian byte string of a
field element's integer value (absent from src, which only encodes). -/
def natToBytes (n : Nat) : List Nat :=
  if h : n = 0 then []
  else
    have : n / 256 < n := Nat.div_lt_self (Nat.pos_of_ne_zero h) (by decide)
    natToBytes (n / 256) ++ [n % 256]

/-- Modelled from the spec (section 8): decoding a felt back to the byte
string it packs. -/
def decode_felt (n : Nat) : List Nat := natToBytes n

/-- Translation of the expiry computation of `get_jwt_token`
(src/onboarding.rs, line 205): `now + 24 * 60 * 60`. -/
def get_jwt_expiry (now : Nat) : Nat := now + 24 * 60 * 60

/-- Translation of the typed data built by `get_jwt_token`
(src/onboarding.rs, line 208). -/
def get_jwt_typed_data (chain_id : List Nat) (now : Nat) : TypedData :=
  build_auth_typed_data chain_id now (get_jwt_expiry now)

/-- Translation of the request headers sent by `get_jwt_token`
(src/onboarding.rs, lines 253-259), in order. -/
def get_jwt_headers (account sig_header : String) (now : Nat) :
    List (String × String) :=
  [("Content-Type", "application/json"),
   ("PARADEX-STARKNET-ACCOUNT", account),
   ("PARADEX-STARKNET-SIGNATURE", sig_header),
   ("PARADEX-TIMESTAMP", Nat.repr now),
   ("PARADEX-SIGNATURE-EXPIRATION", Nat.repr (get_jwt_expiry now))]

/-- HTTP status classification of `reqwest::StatusCode::is_success`:
status codes 200-299. -/
def is_success_status (status : Nat) : Bool :=
  200 ≤ status && status < 300

/-- Translation of the response interpretation of `perform_onboarding`
(src/onboarding.rs, lines 175-181): 2xx yields Ok(()), otherwise an error
whose message is "Onboarding failed: " followed by the response body. -/
def onboarding_response_result (status : Nat) (body : String) :
    Except String Unit :=
  if is_success_status status then Except.ok ()
  else Except.error ("Onboarding failed: " ++ body)

/-! Helper lemmas about strings and the hex encoding. -/

theorem str_mk_append (a b : List Char) :
    (⟨a⟩ : String) ++ (⟨b⟩ : String) = ⟨a ++ b⟩ := rfl

theorem str_append_assoc (a b c : String) :
    a ++ b ++ c = a ++ (b ++ c) := by
  cases a with
  | mk xa =>
    cases b with
    | mk xb =>
      cases c with
      | mk xc => exact congrArg String.mk (List.append_assoc xa xb xc)

theorem str_append_empty (a : String) : a ++ "" = a := by
  cases a with
  | mk xa => exact congrArg String.mk (List.append_nil xa)

theorem foldl_hex_append (s : List Nat) :
    ∀ pre : String,
      s.foldl (fun acc b => acc ++ hex2 b) pre = pre ++ hexChunks s := by
  induction s with
  | nil => intro pre; exact (str_append_empty pre).symm
  | cons b t ih =>
    intro pre
    simp only [List.foldl_cons, hexChunks]
    rw [ih (pre ++ hex2 b), str_append_assoc]

theorem string_to_felt_hex_eq_spec (s : List Nat) :
    string_to_felt_hex s = string_encoding_spec s := by
  unfold string_to_felt_hex string_encoding_spec
  by_cases h : s = []
  · simp [h]
  · simp only [h, if_false]
    exact foldl_hex_append s "0x"

theorem hexChunks_eq_mk (s : List Nat) : hexChunks s = ⟨hexCharsOf s⟩ := by
  induction s with
  | nil => rfl
  | cons b t ih =>
    simp only [hexChunks, hexCharsOf, ih]
    rfl

theorem string_to_felt_hex_data (s : List Nat) (h : s ≠ []) :
    (string_to_felt_hex s).data = '0' :: 'x' :: hexCharsOf s := by
  rw [string_to_felt_hex_eq_spec]
  unfold string_encoding_spec
  simp only [h, if_false]
  rw [hexChunks_eq_mk]
  rfl

theorem hexDigitVal_hexDigitChar {d : Nat} (hd : d < 16) :
    hexDigitVal (hexDigitChar d) = d := by
  interval_cases d <;> decide

theorem parse_hexChars :
    ∀ (s : List Nat), Bytes s → ∀ acc : Nat,
      (hexCharsOf s).foldl (fun a c => a * 16 + hexDigitVal c) acc
        = s.foldl (fun a b => a * 256 + b) acc := by
  intro s
  induction s with
  | nil => intro _ _; rfl
  | cons b t ih =>
    intro hs acc
    have hb : b < 256 := hs b (List.mem_cons_self b t)
    have ht : Bytes t := fun x hx => hs x (List.mem_cons_of_mem b hx)
    have hhi : b / 16 < 16 := Nat.div_lt_of_lt_mul (by omega)
    have hlo : b % 16 < 16 := Nat.mod_lt b (by decide)
    simp only [hexCharsOf, List.foldl_cons,
      hexDigitVal_hexDigitChar hhi, hexDigitVal_hexDigitChar hlo]
    rw [ih ht]
    have hacc : (acc * 16 + b / 16) * 16 + b % 16 = acc * 256 + b := by omega
    rw [hacc]

theorem felt_roundtrip (s : List Nat) (hs : Bytes s) :
    feltHexValue (string_to_felt_hex s) = bytePackValue s := by
  by_cases h : s = []
  · subst h; decide
  · unfold feltHexValue bytePackValue
    rw [string_to_felt_hex_data s h]
    simp only [List.drop]
    exact parse_hexChars s hs 0

/-! Helper lemmas about the byte-packed integer value. -/

theorem pack_foldl_shift :
    ∀ (s : List Nat) (acc : Nat),
      s.foldl (fun a b => a * 256 + b) acc
        = acc * 256 ^ s.length + bytePackValue s := by
  intro s
  induction s with
  | nil => intro acc; simp [bytePackValue]
  | cons b t ih =>
    intro acc
    simp only [List.foldl_cons, List.length_cons]
    rw [ih (acc * 256 + b)]
    have hbt : bytePackValue (b :: t) = b * 256 ^ t.length + bytePackValue t := by
      unfold bytePackValue
      simp only [List.foldl_cons, Nat.zero_mul, Nat.zero_add]
      rw [ih b]
      rfl
    rw [hbt]
    ring

theorem pack_lt (s : List Nat) (hs : Bytes s) :
    bytePackValue s < 256 ^ s.length := by
  induction s with
  | nil => decide
  | cons b t ih =>
    have hb : b < 256 := hs b (List.mem_cons_self b t)
    have ht : Bytes t := fun x hx => hs x (List.mem_cons_of_mem b hx)
    have h1 : bytePackValue (b :: t) = b * 256 ^ t.length + bytePackValue t := by
      unfold bytePackValue
      simp only [List.foldl_cons, Nat.zero_mul, Nat.zero_add]
      rw [pack_foldl_shift t b]
      rfl
    rw [h1, List.length_cons]
    calc b * 256 ^ t.length + bytePackValue t
        < b * 256 ^ t.length + 256 ^ t.length := by
          exact Nat.add_lt_add_left (ih ht) _
      _ = (b + 1) * 256 ^ t.length := by ring
      _ ≤ 256 * 256 ^ t.length := by
          exact Nat.mul_le_mul_right _ (by omega)
      _ = 256 ^ (t.length + 1) := by ring

theorem mul_add_inj {N b c x y : Nat} (hx : x < N) (hy : y < N)
    (h : b * N + x = c * N + y) : b = c ∧ x = y := by
  have hN : 0 < N := Nat.lt_of_le_of_lt (Nat.zero_le x) hx
  have h1 : (b * N + x) / N = b := by
    rw [Nat.add_comm, Nat.add_mul_div_right _ _ hN, Nat.div_eq_of_lt hx,
      Nat.zero_add]
  have h2 : (c * N + y) / N = c := by
    rw [Nat.add_comm, Nat.add_mul_div_right _ _ hN, Nat.div_eq_of_lt hy,
      Nat.zero_add]
  have hbc : b = c := by rw [← h1, ← h2, h]
  refine ⟨hbc, ?_⟩
  subst hbc
  omega

theorem pack_inj :
    ∀ (s t : List Nat), Bytes s → Bytes t → s.length = t.length →
      bytePackValue s = bytePackValue t → s = t := by
  intro s
  induction s with
  | nil =>
    intro t _ _ hlen _
    cases t with
    | nil => rfl
    | cons c u => simp at hlen
  | cons b v ih =>
    intro t hs ht hlen hval
    cases t with
    | nil => simp at hlen
    | cons c u =>
      have hb : b < 256 := hs b (List.mem_cons_self b v)
      have hc : c < 256 := ht c (List.mem_cons_self c u)
      have hv : Bytes v := fun x hx => hs x (List.mem_cons_of_mem b hx)
      have hu : Bytes u := fun x hx => ht x (List.mem_cons_of_mem c hx)
      have hlen2 : v.length = u.length := by simpa using hlen
      have h1 : bytePackValue (b :: v) = b * 256 ^ v.length + bytePackValue v := by
        unfold bytePackValue
        simp only [List.foldl_cons, Nat.zero_mul, Nat.zero_add]
        rw [pack_foldl_shift v b]
        rfl
      have h2 : bytePackValue (c :: u) = c * 256 ^ u.length + bytePackValue u := by
        unfold bytePackValue
        simp only [List.foldl_cons, Nat.zero_mul, Nat.zero_add]
        rw [pack_foldl_shift u c]
        rfl
      rw [h1, h2, hlen2] at hval
      have hvu := mul_add_inj (N := 256 ^ u.length)
        (by rw [← hlen2]; exact pack_lt v hv) (pack_lt u hu) hval
      have : v = u := ih u hv hu hlen2 hvu.2
      rw [hvu.1, this]

/-! Helper lemmas about decoding. -/

theorem natToBytes_zero : natToBytes 0 = [] := by
  rw [natToBytes]
  simp

theorem natToBytes_ne (n : Nat) (h : n ≠ 0) :
    natToBytes n = natToBytes (n / 256) ++ [n % 256] := by
  rw [natToBytes]
  simp [h]

theorem pack_foldl_ge :
    ∀ (t : List Nat) (acc : Nat), acc ≤ t.foldl (fun a b => a * 256 + b) acc := by
  intro t
  induction t with
  | nil => intro acc; exact Nat.le_refl acc
  | cons b u ih =>
    intro acc
    simp only [List.foldl_cons]
    calc acc ≤ acc * 256 + b := by
          have : acc * 1 ≤ acc * 256 := Nat.mul_le_mul_left acc (by decide)
          omega
      _ ≤ u.foldl (fun a b => a * 256 + b) (acc * 256 + b) := ih _

theorem pack_pos (h : Nat) (t : List Nat) (hh : h ≠ 0) :
    0 < bytePackValue (h :: t) := by
  unfold bytePackValue
  simp only [List.foldl_cons, Nat.zero_mul, Nat.zero_add]
  calc 0 < h := Nat.pos_of_ne_zero hh
    _ ≤ t.foldl (fun a b => a * 256 + b) h := pack_foldl_ge t h

theorem pack_append_singleton (l : List Nat) (a : Nat) :
    bytePackValue (l ++ [a]) = bytePackValue l * 256 + a := by
  unfold bytePackValue
  rw [List.foldl_append]
  rfl

theorem decode_pack :
    ∀ (s : List Nat), Bytes s → s ≠ [] → s.head? ≠ some 0 →
      natToBytes (bytePackValue s) = s := by
  intro s
  induction s using List.reverseRecOn with
  | nil => intro _ h _; exact absurd rfl h
  | append_singleton l a ih =>
    intro hb _ hh
    have ha : a < 256 := hb a (by simp)
    rw [pack_append_singleton]
    cases l with
    | nil =>
      have ha0 : a ≠ 0 := by
        intro h0
        apply hh
        simp [h0]
      have hne : bytePackValue [] * 256 + a ≠ 0 := by
        simp [bytePackValue]
        omega
      rw [natToBytes_ne _ hne]
      simp only [bytePackValue, List.foldl_nil, Nat.zero_mul, Nat.zero_add]
      rw [Nat.div_eq_of_lt ha, natToBytes_zero, Nat.mod_eq_of_lt ha]
    | cons x xs =>
      have hx0 : x ≠ 0 := by
        intro h0
        apply hh
        simp [h0]
      have hl : Bytes (x :: xs) := fun y hy => hb y (List.mem_append_left _ hy)
      have hpos : 0 < bytePackValue (x :: xs) := pack_pos x xs hx0
      have hne : bytePackValue (x :: xs) * 256 + a ≠ 0 := by
        have : 256 ≤ bytePackValue (x :: xs) * 256 := by
          have := Nat.mul_le_mul_right 256 hpos
          omega
        omega
      rw [natToBytes_ne _ hne]
      have hdiv : (bytePackValue (x :: xs) * 256 + a) / 256 = bytePackValue (x :: xs) := by
        rw [Nat.add_comm, Nat.add_mul_div_right _ _ (by decide : (0:Nat) < 256),
          Nat.div_eq_of_lt ha, Nat.zero_add]
      have hmod : (bytePackValue (x :: xs) * 256 + a) % 256 = a := by
        rw [Nat.add_comm, Nat.add_mul_mod_self_right]
        exact Nat.mod_eq_of_lt ha
      rw [hdiv, hmod, ih hl (by simp) (by simp [hx0])]

/-- C1: in both flows the independently recomputed domain hash (hash over
the keccak of the literal "StarkNetDomain(name:felt,version:felt,chainId:felt)"
and the parsed domain felts) equals the schema-driven domain hash, for every
chain id, timestamp, expiration, pairwise hash and keccak capability; hence
signing, which the flows reach unconditionally, is only ever reached with
the two domain hashes equal, and the SchemaMismatch abort branch is vacuous. -/
theorem c1_domain_hash_crosscheck :
    ∀ (p : Nat → Nat → Nat) (K : String → Nat) (cid : List Nat) (ts ex : Nat),
      manual_domain_hash p K (build_onboarding_typed_data cid)
          = encoded_domain_hash p K (build_onboarding_typed_data cid) ∧
      manual_domain_hash p K (build_auth_typed_data cid ts ex)
          = encoded_domain_hash p K (build_auth_typed_data cid ts ex) := by
  intro p K cid ts ex
  exact ⟨rfl, rfl⟩

/-- C3: for every string, the string-to-felt encoding equals the
specification's encoding — "0x" followed by exactly two hex digits for each
byte, in order — and the empty string encodes to "0x0". -/
theorem c3_string_encoding :
    (∀ s : List Nat, string_to_felt_hex s = string_encoding_spec s) ∧
    string_to_felt_hex [] = "0x0" :=
  ⟨string_to_felt_hex_eq_spec, rfl⟩

/-- C5: every invocation of the auth flow sets expiration to
timestamp plus 86400 seconds and builds the auth message with primary type
"Request" and values method "POST", path "/v1/auth", body "", and that
timestamp and expiration. -/
theorem c5_auth_flow :
    ∀ (cid : List Nat) (now : Nat),
      get_jwt_expiry now = now + 86400 ∧
      (get_jwt_typed_data cid now).primaryType = "Request" ∧
      (get_jwt_typed_data cid now).message
        = [("method", JVal.s "POST"), ("path", JVal.s "/v1/auth"),
           ("body", JVal.s ""), ("timestamp", JVal.n now),
           ("expiration", JVal.n (now + 86400))] := by
  intro cid now
  exact ⟨rfl, rfl, rfl⟩

/-- C6: for every chain id the onboarding typed data has primary type
"Constant", exactly the single message field action of type felt with value
"Onboarding", and the fixed domain schema name/version/chainId in order. -/
theorem c6_onboarding_schema :
    ∀ cid : List Nat,
      (build_onboarding_typed_data cid).primaryType = "Constant" ∧
      lookupField (build_onboarding_typed_data cid).types "Constant"
        = some [("action", "felt")] ∧
      (build_onboarding_typed_data cid).message
        = [("action", JVal.s "Onboarding")] ∧
      lookupField (build_onboarding_typed_data cid).types "StarkNetDomain"
        = some [("name", "felt"), ("version", "felt"), ("chainId", "felt")] := by
  intro cid
  exact ⟨rfl, rfl, rfl, rfl⟩

/-- C8: in every invocation of the auth flow, the timestamp and expiration
embedded in the signed auth message are exactly the values sent in the
PARADEX-TIMESTAMP and PARADEX-SIGNATURE-EXPIRATION headers — a single
now/expiry pair is used for both. -/
theorem c8_timestamp_consistency :
    ∀ (account sig_header : String) (cid : List Nat) (now : Nat),
      ∃ t e : Nat,
        lookupField (get_jwt_typed_data cid now).message "timestamp"
          = some (JVal.n t) ∧
        lookupField (get_jwt_typed_data cid now).message "expiration"
          = some (JVal.n e) ∧
        lookupField (get_jwt_headers account sig_header now) "PARADEX-TIMESTAMP"
          = some (Nat.repr t) ∧
        lookupField (get_jwt_headers account sig_header now)
          "PARADEX-SIGNATURE-EXPIRATION" = some (Nat.repr e) := by
  intro account sig_header cid now
  exact ⟨now, now + 86400, rfl, rfl, rfl, rfl⟩

/-- C10: for every chain id (and any timestamp and expiration), the
onboarding and the auth typed data carry identical domain objects and
identical domain type schemas, and therefore the same domain hash under
every pairwise hash and keccak capability. -/
theorem c10_domain_consistency :
    ∀ (cid : List Nat) (ts ex : Nat),
      (build_onboarding_typed_data cid).domain
          = (build_auth_typed_data cid ts ex).domain ∧
      lookupField (build_onboarding_typed_data cid).types "StarkNetDomain"
          = lookupField (build_auth_typed_data cid ts ex).types "StarkNetDomain" ∧
      ∀ (p : Nat → Nat → Nat) (K : String → Nat),
        encoded_domain_hash p K (build_onboarding_typed_data cid)
          = encoded_domain_hash p K (build_auth_typed_data cid ts ex) := by
  intro cid ts ex
  exact ⟨rfl, rfl, fun p K => rfl⟩

/-! Shared helper: on strings of at most 31 bytes the field reduction of the
encoded value is the identity. -/

theorem feltDenote_short (s : List Nat) (hs : Bytes s) (hlen : s.length ≤ 31) :
    feltDenote s = bytePackValue s := by
  unfold feltDenote
  rw [felt_roundtrip s hs]
  apply Nat.mod_eq_of_lt
  calc bytePackValue s < 256 ^ s.length := pack_lt s hs
    _ ≤ 256 ^ 31 := Nat.pow_le_pow_right (by decide) hlen
    _ < STARK_PRIME := by decide

/-- C2 counterexample: the 32-byte string of 0xff bytes has byte-packed
value at least 2 to the 252, beyond the field's bit width, yet
string_to_felt_hex returns its full hex encoding — the function is total
and has no EncodingOverflow error path at all. -/
theorem c2_counterexample :
    2 ^ 252 ≤ bytePackValue (List.replicate 32 255) ∧
    string_to_felt_hex (List.replicate 32 255)
      = "0xffffffffffffffffffffffffffffffffffffffffffffffffffffffffffffffff" := by
  constructor
  · decide
  · decide

/-- C2 amended: for every string whose byte-packed value exceeds the
field's bit width, the encoding does not fail — it returns the hex string
denoting the full, unreduced byte-packed value. -/
theorem c2_no_overflow_check :
    ∀ s : List Nat, Bytes s → 2 ^ 252 ≤ bytePackValue s →
      feltHexValue (string_to_felt_hex s) = bytePackValue s := by
  intro s hs _
  exact felt_roundtrip s hs

/-- C2 witness: the amended theorem applied to the 32-byte 0xff string. -/
theorem c2_witness :
    Bytes (List.replicate 32 255) ∧
    2 ^ 252 ≤ bytePackValue (List.replicate 32 255) ∧
    feltHexValue (string_to_felt_hex (List.replicate 32 255))
      = bytePackValue (List.replicate 32 255) :=
  ⟨by decide, by decide,
    c2_no_overflow_check (List.replicate 32 255) (by decide) (by decide)⟩

/-- C4 counterexample: the non-empty two-byte ASCII string of a NUL byte
followed by the byte of the letter a is eligible under the claim, yet its
encoding denotes the same field element as the one-byte string of that
letter, so no decode can recover it; the spec-modelled decode returns the
one-byte string instead. -/
theorem c4_counterexample :
    AsciiBytes [0, 0x61] ∧ ([0, 0x61] : List Nat) ≠ [] ∧
    ([0, 0x61] : List Nat).length ≤ 31 ∧
    feltDenote [0, 0x61] = feltDenote [0x61] ∧
    ([0, 0x61] : List Nat) ≠ [0x61] ∧
    decode_felt (feltDenote [0, 0x61]) ≠ [0, 0x61] := by
  refine ⟨by decide, by decide, by decide, by decide, by decide, ?_⟩
  have h : feltDenote [0, 0x61] = 97 := by decide
  have hd : decode_felt 97 = [97] := by
    unfold decode_felt
    rw [natToBytes_ne 97 (by decide)]
    norm_num
    rw [natToBytes_zero]
  rw [h, hd]
  decide

/-- C4 amended: for every non-empty ASCII string of at most 31 bytes whose
first byte is nonzero, decoding the field element denoted by the encoding
recovers the string exactly. -/
theorem c4_decode_roundtrip :
    ∀ s : List Nat, AsciiBytes s → s ≠ [] → s.head? ≠ some 0 →
      s.length ≤ 31 → decode_felt (feltDenote s) = s := by
  intro s ha hne hh hlen
  have hb : Bytes s := fun b hbmem => Nat.lt_trans (ha b hbmem) (by decide)
  rw [feltDenote_short s hb hlen]
  exact decode_pack s hb hne hh

/-- C4 witness: the amended theorem applied to the two-byte string "ab". -/
theorem c4_witness :
    AsciiBytes [0x61, 0x62] ∧ ([0x61, 0x62] : List Nat) ≠ [] ∧
    ([0x61, 0x62] : List Nat).head? ≠ some 0 ∧
    ([0x61, 0x62] : List Nat).length ≤ 31 ∧
    decode_felt (feltDenote [0x61, 0x62]) = [0x61, 0x62] :=
  ⟨by decide, by decide, by decide, by decide,
    c4_decode_roundtrip [0x61, 0x62] (by decide) (by decide) (by decide)
      (by decide)⟩

/-- C7 counterexample: two different non-2xx statuses produce identical
error values, so the returned error cannot carry the response status; it is
the error string "Onboarding failed: " followed by the body only. -/
theorem c7_counterexample :
    onboarding_response_result 404 "duplicate"
        = onboarding_response_result 500 "duplicate" ∧
    (404 : Nat) ≠ 500 ∧
    onboarding_response_result 404 "duplicate"
        = Except.error "Onboarding failed: duplicate" := by
  refine ⟨rfl, by decide, rfl⟩

/-- C7 amended: the onboarding response interpretation returns Ok exactly
when the status is 2xx, and every non-2xx status returns the error
"Onboarding failed: " followed by the response body (carrying the body but
not the status, and never a panic or silent success). -/
theorem c7_status_result :
    ∀ (status : Nat) (body : String),
      (onboarding_response_result status body = Except.ok ()
        ↔ is_success_status status = true) ∧
      (is_success_status status = false →
        onboarding_response_result status body
          = Except.error ("Onboarding failed: " ++ body)) := by
  intro status body
  unfold onboarding_response_result
  by_cases hs : is_success_status status = true
  · simp [hs]
  · have hs2 : is_success_status status = false := by
      cases hIs : is_success_status status
      · rfl
      · exact absurd hIs hs
    simp [hs2]

/-- C7 witness: the amended theorem applied to status 404. -/
theorem c7_witness :
    is_success_status 404 = false ∧
    onboarding_response_result 404 "dup"
      = Except.error ("Onboarding failed: " ++ "dup") :=
  ⟨by decide, (c7_status_result 404 "dup").2 (by decide)⟩

set_option maxRecDepth 10000 in
/-- C9 counterexample: two distinct 32-byte strings — the big-endian bytes
of the Stark prime and the all-NUL string — have equal byte length yet
denote the same field element (zero), so injectivity between strings of
equal byte length fails once the packed value reaches the field modulus. -/
theorem c9_counterexample :
    ([8,0,0,0,0,0,0,17,0,0,0,0,0,0,0,0,0,0,0,0,0,0,0,0,0,0,0,0,0,0,0,1] :
        List Nat).length
      = ([0,0,0,0,0,0,0,0,0,0,0,0,0,0,0,0,0,0,0,0,0,0,0,0,0,0,0,0,0,0,0,0] :
        List Nat).length ∧
    ([8,0,0,0,0,0,0,17,0,0,0,0,0,0,0,0,0,0,0,0,0,0,0,0,0,0,0,0,0,0,0,1] :
        List Nat)
      ≠ [0,0,0,0,0,0,0,0,0,0,0,0,0,0,0,0,0,0,0,0,0,0,0,0,0,0,0,0,0,0,0,0] ∧
    Bytes [8,0,0,0,0,0,0,17,0,0,0,0,0,0,0,0,0,0,0,0,0,0,0,0,0,0,0,0,0,0,0,1] ∧
    Bytes [0,0,0,0,0,0,0,0,0,0,0,0,0,0,0,0,0,0,0,0,0,0,0,0,0,0,0,0,0,0,0,0] ∧
    feltDenote
        [8,0,0,0,0,0,0,17,0,0,0,0,0,0,0,0,0,0,0,0,0,0,0,0,0,0,0,0,0,0,0,1]
      = feltDenote
        [0,0,0,0,0,0,0,0,0,0,0,0,0,0,0,0,0,0,0,0,0,0,0,0,0,0,0,0,0,0,0,0] := by
  refine ⟨by decide, by decide, by decide, by decide, by decide⟩

/-- C9 amended: the encoding is not injective on non-empty strings — the
one-NUL-byte string denotes the field element zero exactly as the empty
string does — and injectivity between strings of equal byte length holds
for strings of at most 31 bytes, whose packed value stays below the field
modulus. -/
theorem c9_injectivity :
    (feltDenote [0] = feltDenote [] ∧ ([0] : List Nat) ≠ []) ∧
    ∀ s t : List Nat, Bytes s → Bytes t → s.length = t.length →
      s.length ≤ 31 → feltDenote s = feltDenote t → s = t := by
  constructor
  · exact ⟨by decide, by decide⟩
  · intro s t hs ht hlen hshort hval
    rw [feltDenote_short s hs hshort,
      feltDenote_short t ht (hlen ▸ hshort)] at hval
    exact pack_inj s t hs ht hlen hval

/-- C9 witness: the injectivity part applied to the one-byte string 7. -/
theorem c9_witness :
    Bytes [7] ∧ ([7] : List Nat).length ≤ 31 ∧ ([7] : List Nat) = [7] :=
  ⟨by decide, by decide,
    c9_injectivity.2 [7] [7] (by decide) (by decide) rfl (by decide) rfl⟩
